import Mathlib

/-!
# catllm gateway: retrying forwarder, routing table, stream relay and handlers

A shallow embedding of the Go sources

* `internal/forwarder/forwarder.go` (`Forwarder.Do`),
* `internal/config/config.go` (`Config.GetRoute`, `Config.GetProvider`),
* `internal/codec/openai/openai.go` (`Codec`),
* `internal/server/server.go` (the two handlers and the stream relay),

followed by the properties established about them.

Conventions.  A Go `error` value is an `Option GoError` (`none` is `nil`).  Byte
slices are lists of bytes.  The outside world (the upstream, the clock, the
caller's connection, the JSON library) enters as explicit arguments, so every
definition is a computable function of its inputs.
-/

set_option autoImplicit false
set_option maxHeartbeats 1000000

namespace Catllm

/-! ## Go values shared by all packages -/

/-- One byte. -/
abbrev Byte := Fin 256

/-- A byte slice. -/
abbrev Bytes := List Byte

/-- Go error values.  `eof` is the sentinel `io.EOF` (compared by identity in
the source), `other` is any error known only by its message, `wrapped` is the
value built by `fmt.Errorf` with a `%w` verb. -/
inductive GoError where
  | eof
  | other (msg : String)
  | wrapped (msg : String) (inner : GoError)
  deriving DecidableEq, Repr

/-- The method `Error()` of an error value. -/
def GoError.Error : GoError → String
  | .eof => "EOF"
  | .other msg => msg
  | .wrapped msg _ => msg

/-- The method `Unwrap()` of an error value, as `errors.Unwrap` sees it. -/
def GoError.Unwrap : GoError → Option GoError
  | .wrapped _ inner => some inner
  | _ => none

/-- The call `fmt.Errorf(pfx + "%w", e)`: the message is the text before the verb
followed by `e.Error()`, and the result wraps `e`.  A nil operand is printed
by `fmt` as `%!w(<nil>)` and nothing is wrapped. -/
def Errorf_w (pfx : String) (e : Option GoError) : GoError :=
  match e with
  | some inner => .wrapped (pfx ++ inner.Error) inner
  | none => .other (pfx ++ "%!w(<nil>)")

/-- The verb `%d` applied to a Go `int`. -/
def fmt_d (n : Int) : String := toString n

/-! ## Upstream response bodies -/

/-- A response body as the sequence of results its `Read` method gives: the
reads that return a nil error, in order, and then the one read that returns an
error (`io.EOF` for a clean end of input), possibly together with bytes.  No
reader is consulted again after it has returned an error, so this is all a
caller can observe of a body that ends. -/
structure Body where
  reads : List Bytes
  lastData : Bytes
  lastErr : GoError
  deriving DecidableEq, Repr

/-- The function `io.ReadAll`: all the bytes read up to the first error, and
that error, with `io.EOF` turned into nil. -/
def io_ReadAll (b : Body) : Bytes × Option GoError :=
  (b.reads.flatten ++ b.lastData, if b.lastErr = .eof then none else some b.lastErr)

/-- The reader `bytes.NewReader(data)`: one read that returns what remains,
then `0, io.EOF`. -/
def bytes_NewReader (data : Bytes) : Body :=
  ⟨if data = [] then [] else [data], [], .eof⟩

/-! ## `internal/forwarder` -/

/-- An upstream HTTP response as the forwarder and the handlers use it. -/
structure Response where
  StatusCode : Int
  Body : Body
  deriving DecidableEq, Repr

/-- What one call of `f.client.Do(req)` returns: a non-nil error, or a
response. -/
inductive Outcome where
  | failure (err : GoError)
  | response (resp : Response)
  deriving DecidableEq, Repr

/-- The upstream as `Forwarder.Do` meets it: the outcome of the k-th call of
the transport (counted from 0) and how long that call takes, in nanoseconds. -/
structure Upstream where
  outcome : Nat → Outcome
  latency : Nat → Nat

/-- The caller's `context.Context`: the instant, in nanoseconds after `Do`
starts, at which `Done()` is closed (`none`: never), the value of `Err()` from
then on, and which case `select` takes when `Done()` and the timer become
ready at the same instant. -/
structure Context where
  cancelAt : Option Nat
  err : GoError
  doneWinsTie : Bool

/-- The constant `time.Second`, in nanoseconds. -/
def time_Second : Nat := 1000000000

/-- The local `maxRetries` of `Forwarder.Do`. -/
def maxRetries : Nat := 2

/-- The case a `select` statement takes. -/
inductive Fired where
  | done
  | timer
  deriving DecidableEq, Repr

/-- The statement `select { case <-ctx.Done(): ...; case <-time.After(d): }`
entered at instant `now`: the case taken and the instant at which it is
taken. -/
def selectWait (ctx : Context) (now d : Nat) : Fired × Nat :=
  match ctx.cancelAt with
  | none => (.timer, now + d)
  | some c =>
    if c < now + d then (.done, max now c)
    else if c = now + d ∧ ctx.doneWinsTie = true then (.done, now + d)
    else (.timer, now + d)

/-- What `Forwarder.Do` does that is visible from outside, in order. -/
inductive DoEvent where
  | wait (d : Nat)
  | attempt (k : Nat)
  | close (k : Nat)
  deriving DecidableEq, Repr

/-- The pair `(*http.Response, error)` returned by `Forwarder.Do`, with the
trace of what it did and the instant at which it returned. -/
structure DoResult where
  result : Except GoError Response
  trace : List DoEvent
  finishedAt : Nat

/-- The loop state of `Forwarder.Do`. -/
structure DoState where
  now : Nat
  lastErr : Option GoError
  trace : List DoEvent

/-- Lines 36-42: the wait before a retry. -/
def backoff (ctx : Context) (attempt : Nat) (st : DoState) : Except DoResult DoState :=
  if attempt > 0 then
    match selectWait ctx st.now (attempt * time_Second) with
    | (.done, t) =>
      .error ⟨.error ctx.err, st.trace ++ [.wait (attempt * time_Second)], t⟩
    | (.timer, t) =>
      .ok { st with now := t, trace := st.trace ++ [.wait (attempt * time_Second)] }
  else .ok st

/-- The loop `for attempt := 0; attempt <= maxRetries; attempt++` of
`Forwarder.Do`, over the values `attempt` still has to take, and the return
after the loop. -/
def doLoop (ctx : Context) (up : Upstream) : List Nat → DoState → DoResult
  | [], st => ⟨.error (Errorf_w "max retries exceeded: " st.lastErr), st.trace, st.now⟩
  | attempt :: rest, st =>
    match backoff ctx attempt st with
    | .error r => r
    | .ok st1 =>
      let st2 : DoState :=
        { st1 with now := st1.now + up.latency attempt,
                   trace := st1.trace ++ [.attempt attempt] }
      match up.outcome attempt with
      | .failure err => doLoop ctx up rest { st2 with lastErr := some err }
      | .response resp =>
        if resp.StatusCode ≥ 500 then
          doLoop ctx up rest
            { st2 with lastErr := some (.other ("upstream error: " ++ fmt_d resp.StatusCode)),
                       trace := st2.trace ++ [.close attempt] }
        else ⟨.ok resp, st2.trace, st2.now⟩

/-- The method `Forwarder.Do`. -/
def Do (ctx : Context) (up : Upstream) : DoResult :=
  doLoop ctx up (List.range (maxRetries + 1)) ⟨0, none, []⟩

/-- The indices of the transport calls in a trace, in order. -/
def attemptsOf (trace : List DoEvent) : List Nat :=
  trace.filterMap fun e => match e with
    | .attempt k => some k
    | _ => none

/-- The timer durations armed in a trace, in order. -/
def waitsOf (trace : List DoEvent) : List Nat :=
  trace.filterMap fun e => match e with
    | .wait d => some d
    | _ => none

/-- An attempt after which the loop reaches `continue`: a transport failure or
a status of 500 and above. -/
def Outcome.retryable : Outcome → Bool
  | .failure _ => true
  | .response resp => decide (resp.StatusCode ≥ 500)

/-- The description `lastErr` holds after an attempt that did not succeed. -/
def Outcome.failureText : Outcome → String
  | .failure err => err.Error
  | .response resp => "upstream error: " ++ fmt_d resp.StatusCode

/-- The instant at which the wait before attempt `i` begins when every earlier
wait ran to its timer: attempt `k` starts `k` seconds after the wait before it
began and takes `up.latency k`. -/
def waitStart (up : Upstream) : Nat → Nat
  | 0 => 0
  | i + 1 => waitStart up i + i * time_Second + up.latency i

/-- The loop of `Forwarder.Do` arrives at the wait before attempt `i`: every
earlier attempt ended in `continue` and every earlier wait ended by its
timer. -/
def reachesWait (ctx : Context) (up : Upstream) (i : Nat) : Prop :=
  (∀ k, k < i → (up.outcome k).retryable = true) ∧
  (∀ j, 1 ≤ j → j < i → (selectWait ctx (waitStart up j) (j * time_Second)).1 = .timer)

/-! ## `internal/config` -/

/-- The struct `config.ServerConfig`. -/
structure ServerConfig where
  Port : Int
  deriving DecidableEq, Repr

/-- The struct `config.ProviderConfig`. -/
structure ProviderConfig where
  Name : String
  BaseURL : String
  APIKey : String
  Timeout : Int
  deriving DecidableEq, Repr

/-- The struct `config.RouteConfig`. -/
structure RouteConfig where
  Model : String
  Provider : String
  deriving DecidableEq, Repr

/-- The struct `config.Config`. -/
structure Config where
  Server : ServerConfig
  Providers : List ProviderConfig
  Routes : List RouteConfig
  deriving DecidableEq, Repr

/-- The loop of `Config.GetProvider` over the providers still to visit. -/
def providerLoop (name : String) : List ProviderConfig → Option ProviderConfig
  | [] => none
  | p :: rest => if p.Name = name then some p else providerLoop name rest

/-- The method `Config.GetProvider`; `none` is the nil pointer. -/
def Config.GetProvider (c : Config) (name : String) : Option ProviderConfig :=
  providerLoop name c.Providers

/-- The loop of `Config.GetRoute` over the routes still to visit. -/
def routeLoop (model : String) : List RouteConfig → String
  | [] => ""
  | r :: rest => if r.Model = model then r.Provider else routeLoop model rest

/-- The method `Config.GetRoute`. -/
def Config.GetRoute (c : Config) (model : String) : String :=
  routeLoop model c.Routes

/-! ## `internal/types` and the libraries the codec calls -/

/-- Modelled from the spec: a conversation message (role, content) of the
package `internal/types`, which the sources do not include. -/
structure Message where
  Role : String
  Content : String
  deriving DecidableEq, Repr

/-- Modelled from the spec: the struct `types.UnifiedRequest`, which the
sources do not include: the model identifier, the ordered messages, the stream
flag and the generation parameters.  The handlers read `Model` and `Stream`. -/
structure UnifiedRequest where
  Model : String
  Messages : List Message
  Stream : Bool
  Params : List (String × String)
  deriving DecidableEq, Repr

/-- Modelled from the spec: the struct `types.UnifiedResponse`, which the
sources do not include: the generated messages and the usage metadata.  The
handlers only pass it from the decoder to the encoder. -/
structure UnifiedResponse where
  Messages : List Message
  Usage : List (String × String)
  deriving DecidableEq, Repr

/-- The inner struct of the local `errResp` of `Codec.DecodeError`. -/
structure ErrorFields where
  Message : String
  Type_ : String
  Code : String
  deriving DecidableEq, Repr

/-- The local `errResp` of `Codec.DecodeError`. -/
structure ErrorEnvelope where
  Error : ErrorFields
  deriving DecidableEq, Repr

/-- The library calls whose results the gateway branches on.  A streaming
decoder (`json.NewDecoder(r).Decode`) scans what it has read before it looks at
a read error, so its result is a function of the bytes the reader delivers
before its first error and of that error (`none` for `io.EOF`).

* `unmarshalRequest`: `json.Unmarshal(body, dst)` for a `*types.UnifiedRequest`;
* `marshalRequest`: `json.Marshal(req)`;
* `decodeResponse`: `json.NewDecoder(r).Decode` for a `*types.UnifiedResponse`;
* `decodeEnvelope`: `json.NewDecoder(r).Decode` for the error envelope;
* `marshalResponse`: `json.Marshal(unifiedResp)`;
* `newRequestErr`: the error of `http.NewRequestWithContext` for a URL. -/
structure Lib where
  unmarshalRequest : Bytes → Except GoError UnifiedRequest
  marshalRequest : UnifiedRequest → Except GoError Bytes
  decodeResponse : Bytes → Option GoError → Except GoError UnifiedResponse
  decodeEnvelope : Bytes → Option GoError → Except GoError ErrorEnvelope
  marshalResponse : UnifiedResponse → Except GoError Bytes
  newRequestErr : String → Option GoError

/-! ## `internal/codec/openai` -/

/-- The struct `openai.Codec`: it has no field of its own; the library it
calls is carried here. -/
structure Codec where
  lib : Lib

/-- The outbound `*http.Request` built by `Codec.BuildRequest`. -/
structure OutboundRequest where
  Method : String
  URL : String
  Header : List (String × String)
  Payload : Bytes
  deriving DecidableEq, Repr

/-- The method `Codec.Encode`. -/
def Codec.Encode (c : Codec) (req : UnifiedRequest) : Except GoError Bytes :=
  c.lib.marshalRequest req

/-- The method `Codec.Decode`. -/
def Codec.Decode (c : Codec) (body : Body) : Except GoError UnifiedResponse :=
  match c.lib.decodeResponse (io_ReadAll body).1 (io_ReadAll body).2 with
  | .error err => .error (Errorf_w "decode response: " (some err))
  | .ok resp => .ok resp

/-- The method `Codec.DecodeError`; the result is a Go `error`, `none` being
nil. -/
def Codec.DecodeError (c : Codec) (body : Body) : Option GoError :=
  match c.lib.decodeEnvelope (io_ReadAll body).1 (io_ReadAll body).2 with
  | .error _ => some (.other "unknown error")
  | .ok errResp => some (.other (errResp.Error.Type_ ++ ": " ++ errResp.Error.Message))

/-- The method `Codec.BuildRequest`. -/
def Codec.BuildRequest (c : Codec) (baseURL apiKey path : String) (payload : Bytes) :
    Except GoError OutboundRequest :=
  match c.lib.newRequestErr (baseURL ++ path) with
  | some err => .error err
  | none =>
    .ok ⟨"POST", baseURL ++ path,
      [("Content-Type", "application/json"), ("Authorization", "Bearer " ++ apiKey)],
      payload⟩

/-! ## The caller's connection -/

/-- What a handler writes in one call: a string (`http.Error`) or a byte
slice (`w.Write`). -/
inductive Chunk where
  | text (s : String)
  | bytes (b : Bytes)
  deriving DecidableEq, Repr

/-- The `http.ResponseWriter` of `net/http` as a recorder: the header map, the
status code of the response header once it is written (`none` before), the
chunks `net/http` accepted for the body in order, the number of flushes, and
the 1xx codes sent ahead of the response header. -/
structure ResponseWriter where
  header : List (String × String)
  status : Option Int
  body : List Chunk
  flushes : Nat
  informational : List Int
  deriving DecidableEq, Repr

/-- The writer a handler is given. -/
def ResponseWriter.fresh : ResponseWriter := ⟨[], none, [], 0, []⟩

/-- The call `w.Header().Del(key)`. -/
def ResponseWriter.Del (w : ResponseWriter) (key : String) : ResponseWriter :=
  { w with header := w.header.filter fun kv => kv.1 ≠ key }

/-- The call `w.Header().Set(key, value)`. -/
def ResponseWriter.Set (w : ResponseWriter) (key value : String) : ResponseWriter :=
  { w with header := (w.header.filter fun kv => kv.1 ≠ key) ++ [(key, value)] }

/-- The call `w.WriteHeader(code)` of `net/http`; `none` is a panic.  Once the
response header is written the call is ignored.  Otherwise a code outside
100..999 panics, a 1xx code other than 101 is sent as an informational
response and leaves the response header unwritten, and any other code is
written as the status of the response. -/
def ResponseWriter.WriteHeader (w : ResponseWriter) (code : Int) : Option ResponseWriter :=
  match w.status with
  | some _ => some w
  | none =>
    if code < 100 ∨ code > 999 then none
    else if code ≤ 199 ∧ code ≠ 101 then
      some { w with informational := w.informational ++ [code] }
    else some { w with status := some code }

/-- The implicit `WriteHeader(http.StatusOK)` of the first `Write` or `Flush`
on a writer whose response header is not written yet. -/
def ResponseWriter.commit (w : ResponseWriter) : ResponseWriter :=
  match w.status with
  | none => { w with status := some 200 }
  | some _ => w

/-- The function `bodyAllowedForStatus` of `net/http`: no body goes with a
1xx, 204 or 304 status. -/
def bodyAllowedForStatus (status : Int) : Bool :=
  !(decide (100 ≤ status ∧ status ≤ 199) || decide (status = 204) || decide (status = 304))

/-- Whether `net/http` accepts body bytes on this writer. -/
def ResponseWriter.bodyAllowed (w : ResponseWriter) : Bool :=
  match w.status with
  | some status => bodyAllowedForStatus status
  | none => true

/-- A call of `w.Write` that returns a nil error: the response header is
written with status 200 when it was not written before, and the chunk is
accepted.  A call that returns an error is not this one: see `Conn.writeErr`
for the relay and `ResponseWriter.Fprintln` for `http.Error`. -/
def ResponseWriter.Write (w : ResponseWriter) (c : Chunk) : ResponseWriter :=
  { w.commit with body := w.body ++ [c] }

/-- The call `flusher.Flush()`. -/
def ResponseWriter.Flush (w : ResponseWriter) : ResponseWriter :=
  { w.commit with flushes := w.flushes + 1 }

/-- The call `fmt.Fprintln(w, error)` of `http.Error`, whose result is dropped:
the response header is written first if it was not; when the status of the
response allows no body, `Write` returns `http.ErrBodyNotAllowed` and nothing
is accepted. -/
def ResponseWriter.Fprintln (w : ResponseWriter) (error : String) : ResponseWriter :=
  if w.commit.bodyAllowed = true then w.Write (.text (error ++ "\n")) else w.commit

/-- The function `http.Error(w, error, code)`: it deletes `Content-Length`,
sets the two headers, calls `WriteHeader(code)` and prints the message followed
by a newline.  The second component is `true` when `WriteHeader` panics; the
writer is then as the panic leaves it, with nothing sent. -/
def http_Error (w : ResponseWriter) (error : String) (code : Int) : ResponseWriter × Bool :=
  match (((w.Del "Content-Length").Set "Content-Type" "text/plain; charset=utf-8").Set
    "X-Content-Type-Options" "nosniff").WriteHeader code with
  | none =>
    (((w.Del "Content-Length").Set "Content-Type" "text/plain; charset=utf-8").Set
      "X-Content-Type-Options" "nosniff", true)
  | some w1 => (w1.Fprintln error, false)

/-- What the handler cannot decide about the caller's connection: whether the
writer implements `http.Flusher`, and the error the k-th `Write` of the stream
relay returns (counted from 0, `none` for a nil error), whatever its cause. -/
structure Conn where
  canFlush : Bool
  writeErr : Nat → Option GoError

/-! ## `internal/server`: the stream relay -/

/-- The conversion to `int64` of an integer: two's complement wrap-around. -/
def wrapInt64 (x : Int) : Int := (x + 2 ^ 63) % 2 ^ 64 - 2 ^ 63

/-- The size of the relay buffer, `make([]byte, 4096)`. -/
def bufSize : Nat := 4096

/-- The buffer after a `Read` that delivered `data`: the reader fills the
front of the buffer, the length of the buffer does not change. -/
def bufStore (buf data : Bytes) : Bytes :=
  (data ++ buf.drop data.length).take buf.length

/-- What the relay does to the source and to the destination, in order. -/
inductive StreamEvent where
  | read (n : Nat)
  | write (data : Bytes)
  | flush
  deriving DecidableEq, Repr

/-- The pair `(int64, error)` returned by `handleStreamingResponse`, with the
writer as it leaves it and the trace of its reads, writes and flushes. -/
structure StreamResult where
  total : Int
  err : Option GoError
  w : ResponseWriter
  trace : List StreamEvent

/-- The loop state of `handleStreamingResponse`: `total`, `buf`, the writer,
the number of `Write` calls made, and the trace. -/
structure StreamState where
  total : Int
  buf : Bytes
  w : ResponseWriter
  writes : Nat
  trace : List StreamEvent

/-- Lines 153-160: one `Read` that delivered `data` and the `if n > 0` block.
The result is `error` when the block returns from the function. -/
def relayStep (conn : Conn) (st : StreamState) (data : Bytes) :
    Except StreamResult StreamState :=
  let n := data.length
  let buf := bufStore st.buf data
  let trace := st.trace ++ [.read n]
  if n > 0 then
    let total := wrapInt64 (st.total + n)
    match conn.writeErr st.writes with
    | some writeErr => .error ⟨total, some writeErr, st.w, trace⟩
    | none =>
      .ok ⟨total, buf, (st.w.Write (.bytes (buf.take n))).Flush, st.writes + 1,
        trace ++ [.write (buf.take n), .flush]⟩
  else .ok { st with buf := buf, trace := trace }

/-- The `for` loop of `handleStreamingResponse` over the reads of the body
that are still to come. -/
def relayLoop (conn : Conn) (lastData : Bytes) (lastErr : GoError) :
    List Bytes → StreamState → StreamResult
  | [], st =>
    match relayStep conn st lastData with
    | .error r => r
    | .ok st1 =>
      if lastErr = .eof then ⟨st1.total, none, st1.w, st1.trace⟩
      else ⟨st1.total, some lastErr, st1.w, st1.trace⟩
  | data :: rest, st =>
    match relayStep conn st data with
    | .error r => r
    | .ok st1 => relayLoop conn lastData lastErr rest st1

/-- The method `Server.handleStreamingResponse`. -/
def handleStreamingResponse (conn : Conn) (w : ResponseWriter) (resp : Response) :
    StreamResult :=
  let w1 := ((w.Set "Content-Type" "text/event-stream").Set "Cache-Control" "no-cache").Set
    "Connection" "keep-alive"
  if conn.canFlush = false then
    ⟨0, some (.other "streaming not supported"),
      (http_Error w1 "streaming not supported" 500).1, []⟩
  else
    relayLoop conn resp.Body.lastData resp.Body.lastErr resp.Body.reads
      ⟨0, List.replicate bufSize 0, w1, 0, []⟩

/-- The bytes a trace wrote to the destination, in order. -/
def writtenBytes (trace : List StreamEvent) : Bytes :=
  (trace.filterMap fun e => match e with
    | .write data => some data
    | _ => none).flatten

/-- The reads a body gives to a caller that reads it to its end, in order. -/
def Body.allReads (b : Body) : List Bytes := b.reads ++ [b.lastData]

/-- What the relay is specified to do for one read that delivered `data`: the
read, and for a non-empty chunk one write of exactly that chunk followed by
one flush. -/
def specEvents (data : Bytes) : List StreamEvent :=
  if data.length > 0 then [.read data.length, .write data, .flush]
  else [.read data.length]

/-! ## `internal/server`: the handlers -/

/-- The struct `server.Server`; its forwarder meets the upstream through the
`Upstream` argument of the handlers. -/
structure Server where
  config : Config
  codec : Codec

/-- The inbound `*http.Request` as far as the handlers read it. -/
structure Request where
  Method : String
  Body : Body
  ctx : Context

/-- What a handler did: the writer as it leaves it, the outbound request it
handed to the forwarder (`none` when it made no upstream call), the trace of
the forwarder, the trace of the stream relay, and whether it ended in a
panic. -/
structure HandlerResult where
  w : ResponseWriter
  sent : Option OutboundRequest
  forward : List DoEvent
  relay : List StreamEvent
  panicked : Bool

/-- A handler branch that calls `http.Error(w, error, code)` and returns,
after it sent `sent` and the forwarder did `forward`; a panic of `http.Error`
ends the handler. -/
def HandlerResult.fail (w : ResponseWriter) (error : String) (code : Int)
    (sent : Option OutboundRequest) (forward : List DoEvent) : HandlerResult :=
  ⟨(http_Error w error code).1, sent, forward, [], (http_Error w error code).2⟩

/-- The text `http.StatusText(http.StatusMethodNotAllowed)`. -/
def statusTextMethodNotAllowed : String := "Method Not Allowed"

/-- The function `decodeUnifiedRequest`: the body read and the request
decoded from it, or the error. -/
def decodeUnifiedRequest (lib : Lib) (r : Request) : Except GoError (Bytes × UnifiedRequest) :=
  match io_ReadAll r.Body with
  | (_, some err) => .error err
  | (body, none) =>
    match lib.unmarshalRequest body with
    | .error err => .error err
    | .ok dst => .ok (body, dst)

/-- The method `Server.handleChatCompletions`. -/
def handleChatCompletions (s : Server) (conn : Conn) (up : Upstream) (r : Request) :
    HandlerResult :=
  let w := ResponseWriter.fresh
  if r.Method ≠ "POST" then
    .fail w statusTextMethodNotAllowed 405 none []
  else
  match decodeUnifiedRequest s.codec.lib r with
  | .error err => .fail w ("invalid request: " ++ err.Error) 400 none []
  | .ok (_, req) =>
  let providerName := s.config.GetRoute req.Model
  if providerName = "" then
    .fail w ("no route for model: " ++ req.Model) 404 none []
  else
  match s.config.GetProvider providerName with
  | none => .fail w ("provider not found: " ++ providerName) 500 none []
  | some provider =>
  match s.codec.Encode req with
  | .error err => .fail w ("encode error: " ++ err.Error) 500 none []
  | .ok payload =>
  match s.codec.BuildRequest provider.BaseURL provider.APIKey "/v1/chat/completions" payload with
  | .error err => .fail w ("build request error: " ++ err.Error) 500 none []
  | .ok upstreamReq =>
  let fwd := Do r.ctx up
  match fwd.result with
  | .error err =>
    .fail w ("forward error: " ++ err.Error) 502 (some upstreamReq) fwd.trace
  | .ok resp =>
  if resp.StatusCode ≠ 200 then
    match s.codec.DecodeError resp.Body with
    | none => ⟨w, some upstreamReq, fwd.trace, [], true⟩
    | some err =>
      .fail w err.Error resp.StatusCode (some upstreamReq) fwd.trace
  else
  if req.Stream = true then
    let sr := handleStreamingResponse conn w resp
    ⟨sr.w, some upstreamReq, fwd.trace, sr.trace, false⟩
  else
  match io_ReadAll resp.Body with
  | (_, some err) =>
    .fail w ("read upstream response: " ++ err.Error) 502 (some upstreamReq) fwd.trace
  | (upstreamBody, none) =>
  match s.codec.Decode (bytes_NewReader upstreamBody) with
  | .error err =>
    .fail w ("decode error: " ++ err.Error) 500 (some upstreamReq) fwd.trace
  | .ok unifiedResp =>
  match s.codec.lib.marshalResponse unifiedResp with
  | .error err =>
    .fail w ("encode response: " ++ err.Error) 500 (some upstreamReq) fwd.trace
  | .ok responseBody =>
    ⟨(w.Set "Content-Type" "application/json").Write (.bytes responseBody), some upstreamReq,
      fwd.trace, [], false⟩

/-- The method `Server.handleResponses`. -/
def handleResponses (s : Server) (conn : Conn) (up : Upstream) (r : Request) :
    HandlerResult :=
  let w := ResponseWriter.fresh
  if r.Method ≠ "POST" then
    .fail w statusTextMethodNotAllowed 405 none []
  else
  match decodeUnifiedRequest s.codec.lib r with
  | .error err => .fail w ("invalid request: " ++ err.Error) 400 none []
  | .ok (_, req) =>
  let providerName := s.config.GetRoute req.Model
  if providerName = "" then
    .fail w ("no route for model: " ++ req.Model) 404 none []
  else
  match s.config.GetProvider providerName with
  | none => .fail w ("provider not found: " ++ providerName) 500 none []
  | some provider =>
  match s.codec.Encode req with
  | .error err => .fail w ("encode error: " ++ err.Error) 500 none []
  | .ok payload =>
  match s.codec.BuildRequest provider.BaseURL provider.APIKey "/responses" payload with
  | .error err => .fail w ("build request error: " ++ err.Error) 500 none []
  | .ok upstreamReq =>
  let fwd := Do r.ctx up
  match fwd.result with
  | .error err =>
    .fail w ("forward error: " ++ err.Error) 502 (some upstreamReq) fwd.trace
  | .ok resp =>
  if resp.StatusCode ≠ 200 then
    match io_ReadAll resp.Body with
    | (_, some readErr) =>
      .fail w ("read upstream error: " ++ readErr.Error) 502 (some upstreamReq) fwd.trace
    | (upstreamBody, none) =>
    match s.codec.DecodeError (bytes_NewReader upstreamBody) with
    | none => ⟨w, some upstreamReq, fwd.trace, [], true⟩
    | some err =>
      .fail w err.Error resp.StatusCode (some upstreamReq) fwd.trace
  else
  if req.Stream = true then
    let sr := handleStreamingResponse conn w resp
    ⟨sr.w, some upstreamReq, fwd.trace, sr.trace, false⟩
  else
  match io_ReadAll resp.Body with
  | (_, some err) =>
    .fail w ("read upstream response: " ++ err.Error) 502 (some upstreamReq) fwd.trace
  | (upstreamBody, none) =>
  match s.codec.Decode (bytes_NewReader upstreamBody) with
  | .error err =>
    .fail w ("decode error: " ++ err.Error) 500 (some upstreamReq) fwd.trace
  | .ok unifiedResp =>
  match s.codec.lib.marshalResponse unifiedResp with
  | .error err =>
    .fail w ("encode response: " ++ err.Error) 500 (some upstreamReq) fwd.trace
  | .ok responseBody =>
    ⟨(w.Set "Content-Type" "application/json").Write (.bytes responseBody), some upstreamReq,
      fwd.trace, [], false⟩

/-! ## Concrete data for the examples -/

/-- The bytes of an ASCII string. -/
def asciiBytes (s : String) : Bytes := s.toList.map fun ch => Fin.ofNat ch.toNat

/-- A stand-in for the JSON and HTTP libraries, used where a property is
evaluated at a concrete input: it decodes the few literal documents of the
examples, and reports an error for every other input. -/
def sampleLib : Lib where
  unmarshalRequest := fun b =>
    if b = asciiBytes "\x7b\"model\":\"m\"\x7d" then .ok ⟨"m", [], false, []⟩
    else if b = asciiBytes "\x7b\"model\":\"m\",\"stream\":true\x7d" then .ok ⟨"m", [], true, []⟩
    else .error (.other "invalid character")
  marshalRequest := fun req => .ok (asciiBytes ("\x7b\"model\":\"" ++ req.Model ++ "\"\x7d"))
  decodeResponse := fun data err =>
    if data = asciiBytes "\x7b\x7d" then .ok ⟨[], []⟩
    else .error (err.getD (.other "unexpected end of JSON input"))
  decodeEnvelope := fun data err =>
    if data = asciiBytes "\x7b\"error\":\x7b\"type\":\"rate_limit\",\"message\":\"slow down\"\x7d\x7d"
    then .ok ⟨⟨"slow down", "rate_limit", ""⟩⟩
    else .error (err.getD (.other "unexpected end of JSON input"))
  marshalResponse := fun _ => .ok (asciiBytes "\x7b\x7d")
  newRequestErr := fun _ => none

/-- A provider list with one provider. -/
def sampleProviders : List ProviderConfig :=
  [⟨"openai-prod", "https://api.openai.com", "sk-test", 30⟩]

/-- A server whose model `m` is routed to the configured provider. -/
def sampleServer : Server :=
  ⟨⟨⟨8080⟩, sampleProviders, [⟨"m", "openai-prod"⟩]⟩, ⟨sampleLib⟩⟩

/-- A server whose only route entry, for model `m`, names the empty provider
name, which no configured provider has. -/
def emptyRouteServer : Server :=
  ⟨⟨⟨8080⟩, sampleProviders, [⟨"m", ""⟩]⟩, ⟨sampleLib⟩⟩

/-- A server with two route entries for model `m`: the first names the
configured provider, the second a provider that is not configured. -/
def shadowServer : Server :=
  ⟨⟨⟨8080⟩, sampleProviders, [⟨"m", "openai-prod"⟩, ⟨"m", "ghost"⟩]⟩, ⟨sampleLib⟩⟩

/-- A server whose only route entry, for model `m`, names a provider that is
not configured. -/
def danglingServer : Server :=
  ⟨⟨⟨8080⟩, sampleProviders, [⟨"m", "ghost"⟩]⟩, ⟨sampleLib⟩⟩

/-- A context that is never cancelled. -/
def background : Context := ⟨none, .other "context canceled", false⟩

/-- A `POST` whose body is the document `{"model":"m"}`, read in one piece. -/
def sampleRequest : Request :=
  ⟨"POST", ⟨[asciiBytes "\x7b\"model\":\"m\"\x7d"], [], .eof⟩, background⟩

/-- A connection that can flush and on which every write succeeds. -/
def goodConn : Conn := ⟨true, fun _ => none⟩

/-- An upstream that answers every attempt with the given response, after one
millisecond. -/
def always (resp : Response) : Upstream := ⟨fun _ => .response resp, fun _ => 1000000⟩

/-- The number of bytes a body delivers over all its reads. -/
def Body.byteCount (b : Body) : Nat := (b.allReads.map List.length).sum

/-- The writer after the relay wrote and flushed the given chunks in order. -/
def writeChunks (w : ResponseWriter) (chunks : List Bytes) : ResponseWriter :=
  chunks.foldl (fun acc data => (acc.Write (.bytes data)).Flush) w

/-- A body of two reads of two and one bytes, an empty read, and a last read
that returns one byte together with the end of input. -/
def smallBody : Body := ⟨[[1, 2], [3], []], [4], .eof⟩

/-- The handler that sends to `path` gets the response `resp` from the
forwarder: the request is a `POST` that decodes to `req`, the model of `req`
has a route to a configured provider, the payload is encoded, the outbound
request `out` is built, and `Forwarder.Do` returns `resp` with a nil error. -/
def reachesResponse (s : Server) (up : Upstream) (r : Request) (path : String)
    (req : UnifiedRequest) (out : OutboundRequest) (resp : Response) : Prop :=
  r.Method = "POST"
  ∧ (∃ body, decodeUnifiedRequest s.codec.lib r = .ok (body, req))
  ∧ s.config.GetRoute req.Model ≠ ""
  ∧ (∃ provider payload,
      s.config.GetProvider (s.config.GetRoute req.Model) = some provider
      ∧ s.codec.Encode req = .ok payload
      ∧ s.codec.BuildRequest provider.BaseURL provider.APIKey path payload = .ok out)
  ∧ (Do r.ctx up).result = .ok resp

/-- An upstream body that delivers the document `{}` and ends cleanly. -/
def okBody : Body := ⟨[asciiBytes "\x7b\x7d"], [], .eof⟩

/-- An upstream body whose first read fails with a connection error. -/
def brokenBody : Body := ⟨[], [], .other "connection reset by peer"⟩

/-- An upstream body that delivers an error envelope and ends cleanly. -/
def envelopeBody : Body :=
  ⟨[asciiBytes "\x7b\"error\":\x7b\"type\":\"rate_limit\",\"message\":\"slow down\"\x7d\x7d"],
    [], .eof⟩

/-- A context cancelled 1.5 seconds after `Do` starts. -/
def cancelledEarly : Context := ⟨some 1500000000, .other "context canceled", false⟩

/-! # Properties -/

/-! ## The forwarder -/

/-- With a context that is never cancelled, the transport calls `Do` makes are
decided by the outcomes of the first two. -/
theorem attemptsOf_Do (ctx : Context) (up : Upstream) (hctx : ctx.cancelAt = none) :
    attemptsOf (Do ctx up).trace =
      if (up.outcome 0).retryable = true then
        (if (up.outcome 1).retryable = true then [0, 1, 2] else [0, 1])
      else [0] := by
  have hr : List.range (maxRetries + 1) = [0, 1, 2] := by decide
  unfold Do
  rw [hr]
  rcases h0 : up.outcome 0 with e0 | r0 <;> rcases h1 : up.outcome 1 with e1 | r1 <;>
    rcases h2 : up.outcome 2 with e2 | r2 <;>
    simp only [doLoop, backoff, selectWait, hctx, h0, h1, h2, Outcome.retryable,
      decide_eq_true_eq] <;>
    split_ifs <;>
    simp [attemptsOf]

/-- Claim C1.  With a context that is never cancelled and any sequence of
per-attempt outcomes, `Forwarder.Do` calls the transport for the attempts
`0, 1, ...` in order and at most 3 times; after attempt `k` it makes attempt
`k + 1` exactly when attempt `k` was a transport failure or a status of 500 and
above and fewer than 3 attempts were made; and a first response with a status
in 400..499 is returned as the result after that one attempt. -/
theorem Do_attempts (ctx : Context) (up : Upstream) (hctx : ctx.cancelAt = none) :
    attemptsOf (Do ctx up).trace = List.range (attemptsOf (Do ctx up).trace).length
    ∧ (attemptsOf (Do ctx up).trace).length ≤ 3
    ∧ (∀ k, k < (attemptsOf (Do ctx up).trace).length →
        (k + 1 < (attemptsOf (Do ctx up).trace).length ↔
          ((up.outcome k).retryable = true ∧ k + 1 < 3)))
    ∧ (∀ resp, up.outcome 0 = .response resp → 400 ≤ resp.StatusCode →
        resp.StatusCode ≤ 499 →
        (Do ctx up).result = .ok resp ∧ attemptsOf (Do ctx up).trace = [0]) := by
  have hr : List.range (maxRetries + 1) = [0, 1, 2] := by decide
  rw [attemptsOf_Do ctx up hctx]
  refine ⟨?_, ?_, ?_, ?_⟩
  · cases (up.outcome 0).retryable <;> cases (up.outcome 1).retryable <;> decide
  · cases (up.outcome 0).retryable <;> cases (up.outcome 1).retryable <;> decide
  · intro k hk
    cases h0 : (up.outcome 0).retryable <;> cases h1 : (up.outcome 1).retryable <;>
      simp only [h0, h1, if_true, if_false, List.length_cons, List.length_nil,
        Bool.false_eq_true] at hk ⊢ <;>
      interval_cases k <;> simp [h0, h1]
  · intro resp h0 hlo hhi
    have hlt : ¬ resp.StatusCode ≥ 500 := by omega
    have hret : (up.outcome 0).retryable = false := by
      simp [h0, Outcome.retryable, hlt]
    refine ⟨?_, by simp [hret]⟩
    unfold Do
    rw [hr]
    simp only [doLoop, backoff, h0, if_neg hlt, gt_iff_lt, lt_self_iff_false, if_false]

/-- Claim C5.  With a context that is never cancelled, when all three attempts
fail (a transport failure or a status of 500 and above each), `Forwarder.Do`
returns no response and an error whose message is `max retries exceeded: `
followed by the description of the third failure, and which wraps that third
failure: the transport error itself, or `upstream error: <status>`. -/
theorem Do_exhausted (ctx : Context) (up : Upstream) (hctx : ctx.cancelAt = none)
    (hfail : ∀ k, k < 3 → (up.outcome k).retryable = true) :
    ∃ e last, (Do ctx up).result = .error e
      ∧ e.Error = "max retries exceeded: " ++ (up.outcome 2).failureText
      ∧ e.Unwrap = some last
      ∧ last.Error = (up.outcome 2).failureText
      ∧ (∀ err, up.outcome 2 = .failure err → last = err)
      ∧ attemptsOf (Do ctx up).trace = [0, 1, 2] := by
  have hr : List.range (maxRetries + 1) = [0, 1, 2] := by decide
  have f0 := hfail 0 (by omega)
  have f1 := hfail 1 (by omega)
  have f2 := hfail 2 (by omega)
  unfold Do
  rw [hr]
  rcases h0 : up.outcome 0 with e0 | r0 <;> rcases h1 : up.outcome 1 with e1 | r1 <;>
    rcases h2 : up.outcome 2 with e2 | r2 <;>
    simp only [h0, h1, h2, Outcome.retryable, decide_eq_true_eq] at f0 f1 f2 <;>
    simp only [doLoop, backoff, selectWait, hctx, h0, h1, h2, f0, f1, f2, if_true] <;>
    simp [Errorf_w, GoError.Error, GoError.Unwrap, Outcome.failureText, attemptsOf]

theorem selectWait_of_lt (ctx : Context) (now d c : Nat) (hc : ctx.cancelAt = some c)
    (hlt : c < now + d) : selectWait ctx now d = (.done, max now c) := by
  simp [selectWait, hc, hlt]

theorem selectWait_timer (ctx : Context) (now d : Nat)
    (h : (selectWait ctx now d).1 = .timer) : selectWait ctx now d = (.timer, now + d) := by
  unfold selectWait at h ⊢
  cases hc : ctx.cancelAt with
  | none => rfl
  | some c =>
    simp only [hc] at h ⊢
    split_ifs at h ⊢
    all_goals simp_all

theorem Do_wait_first (ctx : Context) (up : Upstream)
    (hreach : reachesWait ctx up 1) :
    (waitsOf (Do ctx up).trace)[1 - 1]? = some (1 * time_Second)
    ∧ (∀ c, ctx.cancelAt = some c → c < waitStart up 1 + 1 * time_Second →
        (Do ctx up).result = .error ctx.err
        ∧ attemptsOf (Do ctx up).trace = List.range 1
        ∧ (Do ctx up).finishedAt = max (waitStart up 1) c)
    ∧ ((selectWait ctx (waitStart up 1) (1 * time_Second)).1 = .timer →
        1 ∈ attemptsOf (Do ctx up).trace) := by
  have hr : List.range (maxRetries + 1) = [0, 1, 2] := by decide
  obtain ⟨hret, htimer⟩ := hreach
  have f0 := hret 0 (by omega)
  have hw : waitStart up 1 = up.latency 0 := by simp [waitStart]
  rw [hw]
  unfold Do
  rw [hr]
  rcases h0 : up.outcome 0 with e0 | r0 <;> rcases h1 : up.outcome 1 with e1 | r1 <;>
    rcases h2 : up.outcome 2 with e2 | r2 <;>
    simp only [h0, Outcome.retryable, decide_eq_true_eq] at f0 <;>
    simp only [doLoop, backoff, h0, h1, h2, f0, if_true, Nat.zero_add,
      Nat.one_mul, gt_iff_lt, lt_self_iff_false, if_false,
      Nat.zero_lt_one, Nat.zero_lt_two, List.nil_append] <;>
    rcases hs : selectWait ctx (up.latency 0) time_Second with ⟨f, t⟩ <;>
    cases f <;>
    simp only [] <;>
    (refine ⟨?_, ?_, ?_⟩
     · rcases selectWait ctx (t + up.latency 1) (2 * time_Second) with ⟨g, u⟩
       cases g <;> (try simp only []) <;> (try split_ifs) <;> simp [waitsOf]
     · intro c hc hlt
       have hd := selectWait_of_lt ctx _ _ c hc hlt
       rw [hs] at hd
       injection hd with hf ht
       cases hf <;> (subst ht; simp [attemptsOf, List.range_succ])
     · intro hh
       rcases selectWait ctx (t + up.latency 1) (2 * time_Second) with ⟨g, u⟩
       cases g <;> (try simp only []) <;> (try split_ifs) <;> simp_all [attemptsOf])

theorem Do_wait_second (ctx : Context) (up : Upstream)
    (hreach : reachesWait ctx up 2) :
    (waitsOf (Do ctx up).trace)[2 - 1]? = some (2 * time_Second)
    ∧ (∀ c, ctx.cancelAt = some c → c < waitStart up 2 + 2 * time_Second →
        (Do ctx up).result = .error ctx.err
        ∧ attemptsOf (Do ctx up).trace = List.range 2
        ∧ (Do ctx up).finishedAt = max (waitStart up 2) c)
    ∧ ((selectWait ctx (waitStart up 2) (2 * time_Second)).1 = .timer →
        2 ∈ attemptsOf (Do ctx up).trace) := by
  have hr : List.range (maxRetries + 1) = [0, 1, 2] := by decide
  obtain ⟨hret, htimer⟩ := hreach
  have f0 := hret 0 (by omega)
  have f1 := hret 1 (by omega)
  have hw : waitStart up 2 = up.latency 0 + time_Second + up.latency 1 := by
    simp [waitStart]
  have ht1 := selectWait_timer ctx (up.latency 0) time_Second
    (by simpa [waitStart] using htimer 1 (by omega) (by omega))
  rw [hw]
  unfold Do
  rw [hr]
  rcases h0 : up.outcome 0 with e0 | r0 <;> rcases h1 : up.outcome 1 with e1 | r1 <;>
    rcases h2 : up.outcome 2 with e2 | r2 <;>
    simp only [h0, h1, Outcome.retryable, decide_eq_true_eq] at f0 f1 <;>
    simp only [doLoop, backoff, h0, h1, h2, f0, f1, ht1, if_true, Nat.zero_add,
      Nat.one_mul, gt_iff_lt, lt_self_iff_false, if_false,
      Nat.zero_lt_one, Nat.zero_lt_two, List.nil_append] <;>
    rcases hs : selectWait ctx (up.latency 0 + time_Second + up.latency 1)
      (2 * time_Second) with ⟨f, t⟩ <;>
    cases f <;>
    simp only [] <;>
    (refine ⟨?_, ?_, ?_⟩
     · (try split_ifs) <;> simp [waitsOf]
     · intro c hc hlt
       have hd := selectWait_of_lt ctx _ _ c hc hlt
       rw [hs] at hd
       injection hd with hf ht
       cases hf <;> (subst ht; simp [attemptsOf, List.range_succ])
     · intro hh
       (try split_ifs) <;> simp_all [attemptsOf])

/-- Claim C10.  For a retry attempt `i` in 1..2 whose wait `Forwarder.Do`
reaches: the timer of that wait is armed for `i` seconds; when the context is
cancelled at an instant before the wait began plus `i` seconds (so also when it
already is cancelled as the wait begins), `Do` returns at the later of the
start of the wait and the cancellation, with no response and the error of the
context itself, having made only the attempts `0 .. i - 1`; and when the wait
ends by its timer, attempt `i` is made. -/
theorem Do_wait_cancel (ctx : Context) (up : Upstream) (i : Nat) (hi1 : 1 ≤ i) (hi2 : i ≤ 2)
    (hreach : reachesWait ctx up i) :
    (waitsOf (Do ctx up).trace)[i - 1]? = some (i * time_Second)
    ∧ (∀ c, ctx.cancelAt = some c → c < waitStart up i + i * time_Second →
        (Do ctx up).result = .error ctx.err
        ∧ attemptsOf (Do ctx up).trace = List.range i
        ∧ (Do ctx up).finishedAt = max (waitStart up i) c)
    ∧ ((selectWait ctx (waitStart up i) (i * time_Second)).1 = .timer →
        i ∈ attemptsOf (Do ctx up).trace) := by
  have hi : i = 1 ∨ i = 2 := by omega
  rcases hi with rfl | rfl
  · exact Do_wait_first ctx up hreach
  · exact Do_wait_second ctx up hreach

/-! ## Routing table -/

theorem routeLoop_first (model : String) (routes : List RouteConfig) (i : Nat)
    (hi : i < routes.length) (hm : routes[i].Model = model)
    (hfirst : ∀ j (hj : j < routes.length), j < i → routes[j].Model ≠ model) :
    routeLoop model routes = routes[i].Provider := by
  induction routes generalizing i with
  | nil => simp at hi
  | cons r rest ih =>
    cases i with
    | zero =>
      simp only [List.getElem_cons_zero] at hm ⊢
      simp [routeLoop, hm]
    | succ k =>
      have h0 : r.Model ≠ model := hfirst 0 (by simp) (by omega)
      simp only [List.getElem_cons_succ] at hm ⊢
      simp only [routeLoop, if_neg h0]
      apply ih k (by simpa using hi) hm
      intro j hj hjk
      exact hfirst (j + 1) (by simpa using hj) (by omega)

theorem routeLoop_absent (model : String) (routes : List RouteConfig)
    (h : ∀ r ∈ routes, r.Model ≠ model) : routeLoop model routes = "" := by
  induction routes with
  | nil => rfl
  | cons r rest ih =>
    have h0 : r.Model ≠ model := h r (by simp)
    simp only [routeLoop, if_neg h0]
    exact ih fun x hx => h x (by simp [hx])

theorem http_Error_fresh (msg : String) (code : Int) (h200 : 200 ≤ code) (h999 : code ≤ 999)
    (h204 : code ≠ 204) (h304 : code ≠ 304) :
    http_Error ResponseWriter.fresh msg code =
      (⟨[("Content-Type", "text/plain; charset=utf-8"), ("X-Content-Type-Options", "nosniff")],
        some code, [.text (msg ++ "\n")], 0, []⟩, false) := by
  have h1 : ¬ (code < 100 ∨ code > 999) := by omega
  have h2 : ¬ (code ≤ 199 ∧ code ≠ 101) := by omega
  have h3 : ¬ (100 ≤ code ∧ code ≤ 199) := by omega
  simp [http_Error, ResponseWriter.fresh, ResponseWriter.Del, ResponseWriter.Set,
    ResponseWriter.WriteHeader, ResponseWriter.Write, ResponseWriter.Fprintln,
    ResponseWriter.commit, ResponseWriter.bodyAllowed, bodyAllowedForStatus, h1, h2, h3,
    h204, h304]

theorem fail_fresh (msg : String) (code : Int) (sent : Option OutboundRequest)
    (forward : List DoEvent) (h200 : 200 ≤ code) (h999 : code ≤ 999)
    (h204 : code ≠ 204) (h304 : code ≠ 304) :
    HandlerResult.fail ResponseWriter.fresh msg code sent forward =
      ⟨⟨[("Content-Type", "text/plain; charset=utf-8"), ("X-Content-Type-Options", "nosniff")],
        some code, [.text (msg ++ "\n")], 0, []⟩, sent, forward, [], false⟩ := by
  simp [HandlerResult.fail, http_Error_fresh msg code h200 h999 h204 h304]

/-- Claim C2.  `Config.GetRoute` is a first-match lookup: when entry `i` names
the model and no earlier entry does, it returns the provider of entry `i`; when
no entry names the model it returns the empty string, and then both handlers
answer a `POST` that decodes to a request for that model with status 404 and
the message `no route for model: <model>`, without an upstream call. -/
theorem GetRoute_first_match (c : Config) (model : String) :
    (∀ i (hi : i < c.Routes.length), c.Routes[i].Model = model →
        (∀ j (hj : j < c.Routes.length), j < i → c.Routes[j].Model ≠ model) →
        c.GetRoute model = c.Routes[i].Provider)
    ∧ ((∀ e ∈ c.Routes, e.Model ≠ model) →
        c.GetRoute model = ""
        ∧ ∀ (codec : Codec) (conn : Conn) (up : Upstream) (r : Request) (body : Bytes)
            (req : UnifiedRequest),
            r.Method = "POST" → decodeUnifiedRequest codec.lib r = .ok (body, req) →
            req.Model = model →
            ((handleChatCompletions ⟨c, codec⟩ conn up r).w.status = some 404
              ∧ (handleChatCompletions ⟨c, codec⟩ conn up r).w.body =
                  [.text ("no route for model: " ++ model ++ "\n")]
              ∧ (handleChatCompletions ⟨c, codec⟩ conn up r).sent = none)
            ∧ ((handleResponses ⟨c, codec⟩ conn up r).w.status = some 404
              ∧ (handleResponses ⟨c, codec⟩ conn up r).w.body =
                  [.text ("no route for model: " ++ model ++ "\n")]
              ∧ (handleResponses ⟨c, codec⟩ conn up r).sent = none)) := by
  refine ⟨fun i hi hm hfirst => routeLoop_first model c.Routes i hi hm hfirst, ?_⟩
  intro habs
  have hroute : c.GetRoute model = "" := routeLoop_absent model c.Routes habs
  refine ⟨hroute, ?_⟩
  intro codec conn up r body req hpost hdec hmodel
  subst hmodel
  constructor
  · simp [handleChatCompletions, hpost, hdec, hroute, fail_fresh]
  · simp [handleResponses, hpost, hdec, hroute, fail_fresh]

/-! ## Dangling routes -/

theorem providerLoop_absent (name : String) (providers : List ProviderConfig)
    (h : ∀ p ∈ providers, p.Name ≠ name) : providerLoop name providers = none := by
  induction providers with
  | nil => rfl
  | cons p rest ih =>
    have h0 : p.Name ≠ name := h p (by simp)
    simp only [providerLoop, if_neg h0]
    exact ih fun x hx => h x (by simp [hx])

/-- Claim C6 fails as stated, at two configurations.  In the first the only
route entry for model `m` names the empty provider name, which no configured
provider has, and both handlers answer the well-formed request for `m` with
404 `no route for model: m`, not with 500.  In the second the model `m` has a
route entry naming the provider `ghost`, which is not configured, behind an
entry naming a configured provider, and both handlers call the upstream and
answer 200. -/
theorem dangling_routes_not_500 :
    sampleRequest.Method = "POST"
    ∧ decodeUnifiedRequest sampleLib sampleRequest
        = .ok (asciiBytes "\x7b\"model\":\"m\"\x7d", ⟨"m", [], false, []⟩)
    ∧ (emptyRouteServer.config.Routes = [⟨"m", ""⟩]
      ∧ (∀ p ∈ emptyRouteServer.config.Providers, p.Name ≠ "")
      ∧ (handleChatCompletions emptyRouteServer goodConn (always ⟨200, okBody⟩)
          sampleRequest).w.status = some 404
      ∧ (handleChatCompletions emptyRouteServer goodConn (always ⟨200, okBody⟩)
          sampleRequest).w.body = [.text "no route for model: m\n"]
      ∧ (handleResponses emptyRouteServer goodConn (always ⟨200, okBody⟩)
          sampleRequest).w.status = some 404
      ∧ (handleResponses emptyRouteServer goodConn (always ⟨200, okBody⟩)
          sampleRequest).w.body = [.text "no route for model: m\n"])
    ∧ (shadowServer.config.Routes = [⟨"m", "openai-prod"⟩, ⟨"m", "ghost"⟩]
      ∧ (∀ p ∈ shadowServer.config.Providers, p.Name ≠ "ghost")
      ∧ (handleChatCompletions shadowServer goodConn (always ⟨200, okBody⟩)
          sampleRequest).w.status = some 200
      ∧ (handleChatCompletions shadowServer goodConn (always ⟨200, okBody⟩)
          sampleRequest).forward = [.attempt 0]
      ∧ (handleResponses shadowServer goodConn (always ⟨200, okBody⟩)
          sampleRequest).w.status = some 200
      ∧ (handleResponses shadowServer goodConn (always ⟨200, okBody⟩)
          sampleRequest).forward = [.attempt 0]) := by
  refine ⟨rfl, rfl, ⟨rfl, by decide, by decide, by decide, by decide, by decide⟩,
    ⟨rfl, by decide, by decide, by decide, by decide, by decide⟩⟩

/-- Claim C6, amended.  For a `POST` that decodes to a request whose model is
first named by route entry `i`, when the provider name of that entry is not
empty and no configured provider has it, both handlers answer 500 with the
message `provider not found: <name>` and make no upstream call. -/
theorem dangling_route_is_500 (s : Server) (conn : Conn) (up : Upstream) (r : Request)
    (body : Bytes) (req : UnifiedRequest) (i : Nat) (hi : i < s.config.Routes.length)
    (hpost : r.Method = "POST")
    (hdec : decodeUnifiedRequest s.codec.lib r = .ok (body, req))
    (hmodel : s.config.Routes[i].Model = req.Model)
    (hfirst : ∀ j (hj : j < s.config.Routes.length), j < i →
      s.config.Routes[j].Model ≠ req.Model)
    (hname : s.config.Routes[i].Provider ≠ "")
    (habsent : ∀ p ∈ s.config.Providers, p.Name ≠ s.config.Routes[i].Provider) :
    ((handleChatCompletions s conn up r).w.status = some 500
      ∧ (handleChatCompletions s conn up r).w.body =
          [.text ("provider not found: " ++ s.config.Routes[i].Provider ++ "\n")]
      ∧ (handleChatCompletions s conn up r).sent = none
      ∧ (handleChatCompletions s conn up r).forward = [])
    ∧ ((handleResponses s conn up r).w.status = some 500
      ∧ (handleResponses s conn up r).w.body =
          [.text ("provider not found: " ++ s.config.Routes[i].Provider ++ "\n")]
      ∧ (handleResponses s conn up r).sent = none
      ∧ (handleResponses s conn up r).forward = []) := by
  have hroute : s.config.GetRoute req.Model = s.config.Routes[i].Provider :=
    routeLoop_first req.Model s.config.Routes i hi hmodel hfirst
  have hdangling : s.config.GetProvider s.config.Routes[i].Provider = none :=
    providerLoop_absent _ _ habsent
  constructor
  · simp [handleChatCompletions, hpost, hdec, hroute, hname, hdangling, fail_fresh]
  · simp [handleResponses, hpost, hdec, hroute, hname, hdangling, fail_fresh]

theorem dangling_route_is_500_witness :
    ((handleChatCompletions danglingServer goodConn (always ⟨200, envelopeBody⟩)
        sampleRequest).w.status = some 500
      ∧ (handleChatCompletions danglingServer goodConn (always ⟨200, envelopeBody⟩)
          sampleRequest).w.body =
          [.text ("provider not found: "
            ++ (danglingServer.config.Routes.get ⟨0, by decide⟩).Provider ++ "\n")]
      ∧ (handleChatCompletions danglingServer goodConn (always ⟨200, envelopeBody⟩)
          sampleRequest).sent = none
      ∧ (handleChatCompletions danglingServer goodConn (always ⟨200, envelopeBody⟩)
          sampleRequest).forward = [])
    ∧ ((handleResponses danglingServer goodConn (always ⟨200, envelopeBody⟩)
        sampleRequest).w.status = some 500
      ∧ (handleResponses danglingServer goodConn (always ⟨200, envelopeBody⟩)
          sampleRequest).w.body =
          [.text ("provider not found: "
            ++ (danglingServer.config.Routes.get ⟨0, by decide⟩).Provider ++ "\n")]
      ∧ (handleResponses danglingServer goodConn (always ⟨200, envelopeBody⟩)
          sampleRequest).sent = none
      ∧ (handleResponses danglingServer goodConn (always ⟨200, envelopeBody⟩)
          sampleRequest).forward = []) :=
  dangling_route_is_500 danglingServer goodConn (always ⟨200, envelopeBody⟩) sampleRequest
    (asciiBytes "\x7b\"model\":\"m\"\x7d") ⟨"m", [], false, []⟩ 0 (by decide) (by decide)
    (by rfl) (by decide) (fun j _ hj => absurd hj (Nat.not_lt_zero j)) (by decide) (by decide)

/-! ## The error decoder -/

theorem DecodeError_isSome (c : Codec) (body : Body) : ∃ e, c.DecodeError body = some e := by
  unfold Codec.DecodeError
  cases c.lib.decodeEnvelope (io_ReadAll body).1 (io_ReadAll body).2 <;> simp

/-- Claim C9.  `Codec.DecodeError` returns a non-nil error for every body; when
the body does not decode into the error envelope the error is the plain
`unknown error`, whatever the decoding error was; when it decodes, the error
wraps nothing and its message is the type, `: `, and the message of the
envelope. -/
theorem DecodeError_total (c : Codec) (body : Body) :
    (∃ e, c.DecodeError body = some e)
    ∧ (∀ parseErr,
        c.lib.decodeEnvelope (io_ReadAll body).1 (io_ReadAll body).2 = .error parseErr →
        c.DecodeError body = some (.other "unknown error"))
    ∧ (∀ errResp,
        c.lib.decodeEnvelope (io_ReadAll body).1 (io_ReadAll body).2 = .ok errResp →
        ∃ e, c.DecodeError body = some e ∧ e.Unwrap = none
          ∧ e.Error = errResp.Error.Type_ ++ ": " ++ errResp.Error.Message) := by
  unfold Codec.DecodeError
  cases h : c.lib.decodeEnvelope (io_ReadAll body).1 (io_ReadAll body).2 with
  | error parseErr => simp
  | ok errResp => simp [GoError.Error, GoError.Unwrap]

/-! ## The stream relay -/

theorem wrapInt64_add (a n : Int) : wrapInt64 (wrapInt64 a + n) = wrapInt64 (a + n) := by
  unfold wrapInt64
  omega

theorem wrapInt64_of_fits (x : Int) (h0 : 0 ≤ x) (h1 : x < 2 ^ 63) : wrapInt64 x = x := by
  unfold wrapInt64
  omega

theorem bufStore_length (buf data : Bytes) : (bufStore buf data).length = buf.length := by
  simp only [bufStore, List.length_take, List.length_append, List.length_drop]
  omega

theorem bufStore_take (buf data : Bytes) (h : data.length ≤ buf.length) :
    (bufStore buf data).take data.length = data := by
  simp only [bufStore, List.take_take, Nat.min_eq_left h]
  simp

/-- One pass of the loop body when the write succeeds. -/
theorem relayStep_ok (conn : Conn) (hw : ∀ k, conn.writeErr k = none) (st : StreamState)
    (data : Bytes) :
    ∃ st1, relayStep conn st data = .ok st1
      ∧ st1.buf = bufStore st.buf data
      ∧ st1.total = (if data.length > 0 then wrapInt64 (st.total + data.length) else st.total)
      ∧ st1.trace = st.trace ++
          (if data.length > 0 then
            [.read data.length, .write ((bufStore st.buf data).take data.length), .flush]
           else [.read data.length])
      ∧ st1.w = (if data.length > 0 then
          (st.w.Write (.bytes ((bufStore st.buf data).take data.length))).Flush else st.w) := by
  unfold relayStep
  by_cases hn : data.length > 0
  · simp [hn, hw]
  · simp [hn]

/-- The byte count and the error of the relay loop when every write
succeeds. -/
theorem relayLoop_total (conn : Conn) (hw : ∀ k, conn.writeErr k = none) (lastData : Bytes)
    (lastErr : GoError) (reads : List Bytes) (st : StreamState) (acc : Int)
    (hacc : st.total = wrapInt64 acc) :
    (relayLoop conn lastData lastErr reads st).total =
        wrapInt64 (acc + (((reads ++ [lastData]).map List.length).sum : Nat))
    ∧ (relayLoop conn lastData lastErr reads st).err =
        (if lastErr = .eof then none else some lastErr) := by
  induction reads generalizing st acc with
  | nil =>
    obtain ⟨st1, hst, -, htot, -, -⟩ := relayStep_ok conn hw st lastData
    simp only [relayLoop, hst]
    have ht : st1.total = wrapInt64 (acc + (lastData.length : Nat)) := by
      rw [htot]
      by_cases hn : lastData.length > 0
      · simp only [hn, if_true, hacc, wrapInt64_add]
      · have h0 : lastData.length = 0 := by omega
        simp [hn, hacc, h0]
    by_cases he : lastErr = .eof <;> simp [he, ht]
  | cons data rest ih =>
    obtain ⟨st1, hst, -, htot, -, -⟩ := relayStep_ok conn hw st data
    simp only [relayLoop, hst]
    have ht : st1.total = wrapInt64 (acc + (data.length : Nat)) := by
      rw [htot]
      by_cases hn : data.length > 0
      · simp only [hn, if_true, hacc, wrapInt64_add]
      · have h0 : data.length = 0 := by omega
        simp [hn, hacc, h0]
    have := ih st1 (acc + (data.length : Nat)) ht
    simp only [List.cons_append, List.map_cons, List.sum_cons, Nat.cast_add]
    rw [← add_assoc]
    exact this

/-- The trace and the writer of the relay loop when every write succeeds and
every read fits the buffer. -/
theorem relayLoop_trace (conn : Conn) (hw : ∀ k, conn.writeErr k = none) (lastData : Bytes)
    (lastErr : GoError) (reads : List Bytes) (st : StreamState)
    (hbuf : st.buf.length = bufSize)
    (hfit : ∀ d ∈ reads ++ [lastData], d.length ≤ bufSize) :
    (relayLoop conn lastData lastErr reads st).trace =
        st.trace ++ (reads ++ [lastData]).flatMap specEvents
    ∧ (relayLoop conn lastData lastErr reads st).w =
        writeChunks st.w ((reads ++ [lastData]).filter fun d => d.length > 0) := by
  induction reads generalizing st with
  | nil =>
    obtain ⟨st1, hst, -, -, htr, hw1⟩ := relayStep_ok conn hw st lastData
    have hl : lastData.length ≤ st.buf.length := by
      rw [hbuf]; exact hfit lastData (by simp)
    rw [bufStore_take _ _ hl] at htr hw1
    have hres : (relayLoop conn lastData lastErr [] st).trace = st1.trace
        ∧ (relayLoop conn lastData lastErr [] st).w = st1.w := by
      simp only [relayLoop, hst]
      by_cases he : lastErr = .eof <;> simp [he]
    rw [hres.1, hres.2, htr, hw1]
    by_cases hn : lastData.length > 0 <;> simp [hn, specEvents, writeChunks]
  | cons data rest ih =>
    obtain ⟨st1, hst, hb1, -, htr, hw1⟩ := relayStep_ok conn hw st data
    have hl : data.length ≤ st.buf.length := by
      rw [hbuf]; exact hfit data (by simp)
    rw [bufStore_take _ _ hl] at htr hw1
    have hbuf1 : st1.buf.length = bufSize := by rw [hb1, bufStore_length, hbuf]
    have := ih st1 hbuf1 (fun d hd => hfit d (by simp at hd ⊢; tauto))
    simp only [relayLoop, hst]
    rw [this.1, this.2, htr, hw1]
    by_cases hn : data.length > 0 <;> simp [hn, specEvents, writeChunks]

theorem handleStreamingResponse_loop (conn : Conn) (w : ResponseWriter) (resp : Response)
    (hflush : conn.canFlush = true) :
    handleStreamingResponse conn w resp =
      relayLoop conn resp.Body.lastData resp.Body.lastErr resp.Body.reads
        ⟨0, List.replicate bufSize 0,
          ((w.Set "Content-Type" "text/event-stream").Set "Cache-Control" "no-cache").Set
            "Connection" "keep-alive", 0, []⟩ := by
  simp [handleStreamingResponse, hflush]

/-- With a flushing destination whose writes succeed and a body that ends in
a clean end of input, the relay returns a nil error and the sum of the byte
counts of its reads converted to `int64`. -/
theorem relay_total_wraps (conn : Conn) (w : ResponseWriter) (resp : Response)
    (hflush : conn.canFlush = true) (hw : ∀ k, conn.writeErr k = none)
    (heof : resp.Body.lastErr = .eof) :
    (handleStreamingResponse conn w resp).err = none
    ∧ (handleStreamingResponse conn w resp).total = wrapInt64 resp.Body.byteCount := by
  rw [handleStreamingResponse_loop conn w resp hflush]
  have h := relayLoop_total conn hw resp.Body.lastData resp.Body.lastErr resp.Body.reads
    ⟨0, List.replicate bufSize 0,
      ((w.Set "Content-Type" "text/event-stream").Set "Cache-Control" "no-cache").Set
        "Connection" "keep-alive", 0, []⟩ 0 (by simp [wrapInt64])
  refine ⟨by rw [h.2, heof]; simp, ?_⟩
  rw [h.1]
  simp [Body.byteCount, Body.allReads]

theorem relay_total_of_fits (conn : Conn) (w : ResponseWriter) (resp : Response)
    (hflush : conn.canFlush = true) (hw : ∀ k, conn.writeErr k = none)
    (heof : resp.Body.lastErr = .eof) (hfits : resp.Body.byteCount < 2 ^ 63) :
    (handleStreamingResponse conn w resp).err = none
    ∧ (handleStreamingResponse conn w resp).total = resp.Body.byteCount := by
  have hr := relay_total_wraps conn w resp hflush hw heof
  refine ⟨hr.1, ?_⟩
  rw [hr.2]
  apply wrapInt64_of_fits
  · exact Int.natCast_nonneg _
  · exact_mod_cast hfits

theorem byteCount_le (b : Body) (hfit : ∀ d ∈ b.allReads, d.length ≤ bufSize) :
    b.byteCount ≤ b.allReads.length * bufSize := by
  unfold Body.byteCount
  have h := List.sum_le_card_nsmul (b.allReads.map List.length) bufSize (by
    intro x hx
    obtain ⟨d, hd, rfl⟩ := List.mem_map.mp hx
    exact hfit d hd)
  simpa using h

/-- Claim C3.  For a body given as a finite sequence of reads of at most 4096
bytes each that ends in a clean end of input, with every destination write
succeeding, `handleStreamingResponse` returns a nil error and a count equal to
the exact sum of the byte counts of all its reads, the one that reported the
end of input included.  The destination is one that can flush, the only kind
the relay loop runs for, and the sequence has fewer than 2^51 reads, so that
the sum is within the `int64` the count is kept in. -/
theorem relay_total_exact (conn : Conn) (w : ResponseWriter) (resp : Response)
    (hflush : conn.canFlush = true) (hw : ∀ k, conn.writeErr k = none)
    (heof : resp.Body.lastErr = .eof)
    (hfit : ∀ d ∈ resp.Body.allReads, d.length ≤ bufSize)
    (hreads : resp.Body.allReads.length < 2 ^ 51) :
    (handleStreamingResponse conn w resp).err = none
    ∧ (handleStreamingResponse conn w resp).total = resp.Body.byteCount := by
  apply relay_total_of_fits conn w resp hflush hw heof
  have h := byteCount_le resp.Body hfit
  have hb : bufSize = 4096 := rfl
  rw [hb] at h
  omega

theorem relay_total_exact_witness :
    (handleStreamingResponse goodConn ResponseWriter.fresh ⟨200, smallBody⟩).err = none
    ∧ (handleStreamingResponse goodConn ResponseWriter.fresh ⟨200, smallBody⟩).total
        = smallBody.byteCount :=
  relay_total_exact goodConn ResponseWriter.fresh ⟨200, smallBody⟩ (by decide)
    (fun _ => rfl) (by decide) (by decide) (by decide)

theorem writtenBytes_specEvents (reads : List Bytes) :
    writtenBytes (reads.flatMap specEvents) = (reads.filter fun d => d.length > 0).flatten := by
  induction reads with
  | nil => rfl
  | cons d rest ih =>
    have happ : ∀ xs ys, writtenBytes (xs ++ ys) = writtenBytes xs ++ writtenBytes ys := by
      intro xs ys
      simp [writtenBytes, List.filterMap_append]
    rw [List.flatMap_cons, happ, ih]
    by_cases hn : d.length > 0
    · simp [specEvents, hn, writtenBytes, List.filter_cons]
    · simp [specEvents, hn, writtenBytes, List.filter_cons]

theorem writeChunks_body (w : ResponseWriter) (chunks : List Bytes) :
    (writeChunks w chunks).body = w.body ++ chunks.map Chunk.bytes := by
  induction chunks generalizing w with
  | nil => simp [writeChunks]
  | cons d rest ih =>
    have := ih ((w.Write (.bytes d)).Flush)
    simp only [writeChunks, List.foldl_cons] at this ⊢
    have hb : ((w.Write (.bytes d)).Flush).body = w.body ++ [.bytes d] := by
      obtain ⟨hd, st, bd, fl, inf⟩ := w
      cases st <;> rfl
    rw [this, hb]
    simp

theorem writeChunks_flushes (w : ResponseWriter) (chunks : List Bytes) :
    (writeChunks w chunks).flushes = w.flushes + chunks.length := by
  induction chunks generalizing w with
  | nil => simp [writeChunks]
  | cons d rest ih =>
    have := ih ((w.Write (.bytes d)).Flush)
    simp only [writeChunks, List.foldl_cons] at this ⊢
    rw [this]
    have hf : ((w.Write (.bytes d)).Flush).flushes = w.flushes + 1 := by
      obtain ⟨hd, st, bd, fl, inf⟩ := w
      cases st <;> rfl
    rw [hf, List.length_cons]
    omega

/-- Claim C4.  With a flushing destination whose writes all succeed and a body
of reads of at most 4096 bytes that ends in a clean end of input, the relay
does, for each read in order, the read and then, when it delivered bytes, one
write of exactly those bytes followed by one flush; so the bytes written are
the concatenation in order of the non-empty chunks read, the one that came
with the end of input included, and there is one flush per chunk written. -/
theorem relay_writes_in_order (conn : Conn) (w : ResponseWriter) (resp : Response)
    (hflush : conn.canFlush = true) (hw : ∀ k, conn.writeErr k = none)
    (heof : resp.Body.lastErr = .eof)
    (hfit : ∀ d ∈ resp.Body.allReads, d.length ≤ bufSize) :
    (handleStreamingResponse conn w resp).err = none
    ∧ (handleStreamingResponse conn w resp).trace = resp.Body.allReads.flatMap specEvents
    ∧ writtenBytes (handleStreamingResponse conn w resp).trace =
        (resp.Body.allReads.filter fun d => d.length > 0).flatten
    ∧ (handleStreamingResponse conn w resp).w.body =
        w.body ++ (resp.Body.allReads.filter fun d => d.length > 0).map Chunk.bytes
    ∧ (handleStreamingResponse conn w resp).w.flushes =
        w.flushes + (resp.Body.allReads.filter fun d => d.length > 0).length := by
  have hr := relay_total_wraps conn w resp hflush hw heof
  rw [handleStreamingResponse_loop conn w resp hflush] at hr ⊢
  have h := relayLoop_trace conn hw resp.Body.lastData resp.Body.lastErr resp.Body.reads
    ⟨0, List.replicate bufSize 0,
      ((w.Set "Content-Type" "text/event-stream").Set "Cache-Control" "no-cache").Set
        "Connection" "keep-alive", 0, []⟩ (by simp) hfit
  simp only [List.nil_append] at h
  refine ⟨hr.1, h.1, ?_, ?_, ?_⟩
  · rw [h.1]
    exact writtenBytes_specEvents _
  · rw [h.2, writeChunks_body]
    simp [ResponseWriter.Set, Body.allReads]
  · rw [h.2, writeChunks_flushes]
    simp [ResponseWriter.Set, Body.allReads]

/-! ## The handlers after the forwarder returned -/

/-- Claim C7, the code at the failing input.  The forwarder returns a 404
whose body cannot be read.  `handleChatCompletions` answers with the upstream
status 404 and the message of `Codec.DecodeError`; `handleResponses` answers
502 `read upstream error: ...`, having called neither `Codec.DecodeError` nor
the relay. -/
theorem responses_read_error_is_502 :
    reachesResponse sampleServer (always ⟨404, brokenBody⟩) sampleRequest "/responses"
      ⟨"m", [], false, []⟩
      ⟨"POST", "https://api.openai.com/responses",
        [("Content-Type", "application/json"), ("Authorization", "Bearer sk-test")],
        asciiBytes "\x7b\"model\":\"m\"\x7d"⟩
      ⟨404, brokenBody⟩
    ∧ sampleServer.codec.DecodeError brokenBody = some (.other "unknown error")
    ∧ (handleChatCompletions sampleServer goodConn (always ⟨404, brokenBody⟩)
        sampleRequest).w.status = some 404
    ∧ (handleChatCompletions sampleServer goodConn (always ⟨404, brokenBody⟩)
        sampleRequest).w.body = [.text "unknown error\n"]
    ∧ (handleResponses sampleServer goodConn (always ⟨404, brokenBody⟩) sampleRequest).w.status
        = some 502
    ∧ (handleResponses sampleServer goodConn (always ⟨404, brokenBody⟩) sampleRequest).w.body
        = [.text "read upstream error: connection reset by peer\n"] := by
  refine ⟨⟨by decide, ⟨_, rfl⟩, by decide, ⟨_, _, rfl, rfl, rfl⟩, rfl⟩, by decide, by decide,
    by decide, by decide, by decide⟩

/-- Claim C8, the code at the failing input.  For one request, configuration
and upstream, a 429 whose body cannot be read, `handleResponses` writes status
502 and `handleChatCompletions` writes status 429, with different bodies. -/
theorem handlers_differ_on_read_error :
    (handleResponses sampleServer goodConn (always ⟨429, brokenBody⟩) sampleRequest).w.status
        = some 502
    ∧ (handleResponses sampleServer goodConn (always ⟨429, brokenBody⟩) sampleRequest).w.body
        = [.text "read upstream error: connection reset by peer\n"]
    ∧ (handleChatCompletions sampleServer goodConn (always ⟨429, brokenBody⟩)
        sampleRequest).w.status = some 429
    ∧ (handleChatCompletions sampleServer goodConn (always ⟨429, brokenBody⟩)
        sampleRequest).w.body = [.text "unknown error\n"]
    ∧ (handleResponses sampleServer goodConn (always ⟨429, brokenBody⟩) sampleRequest).w
        ≠ (handleChatCompletions sampleServer goodConn (always ⟨429, brokenBody⟩)
            sampleRequest).w := by
  refine ⟨by decide, by decide, by decide, by decide, by decide⟩

/-! ## The properties at concrete inputs -/

theorem Do_attempts_witness :
    attemptsOf (Do background (always ⟨404, envelopeBody⟩)).trace
        = List.range (attemptsOf (Do background (always ⟨404, envelopeBody⟩)).trace).length
    ∧ (attemptsOf (Do background (always ⟨404, envelopeBody⟩)).trace).length ≤ 3
    ∧ (∀ k, k < (attemptsOf (Do background (always ⟨404, envelopeBody⟩)).trace).length →
        (k + 1 < (attemptsOf (Do background (always ⟨404, envelopeBody⟩)).trace).length ↔
          (((always ⟨404, envelopeBody⟩).outcome k).retryable = true ∧ k + 1 < 3)))
    ∧ (∀ resp, (always ⟨404, envelopeBody⟩).outcome 0 = .response resp →
        400 ≤ resp.StatusCode → resp.StatusCode ≤ 499 →
        (Do background (always ⟨404, envelopeBody⟩)).result = .ok resp
        ∧ attemptsOf (Do background (always ⟨404, envelopeBody⟩)).trace = [0]) :=
  Do_attempts background (always ⟨404, envelopeBody⟩) rfl

theorem Do_exhausted_witness :
    ∃ e last, (Do background (always ⟨503, envelopeBody⟩)).result = .error e
      ∧ e.Error = "max retries exceeded: " ++
          ((always ⟨503, envelopeBody⟩).outcome 2).failureText
      ∧ e.Unwrap = some last
      ∧ last.Error = ((always ⟨503, envelopeBody⟩).outcome 2).failureText
      ∧ (∀ err, (always ⟨503, envelopeBody⟩).outcome 2 = .failure err → last = err)
      ∧ attemptsOf (Do background (always ⟨503, envelopeBody⟩)).trace = [0, 1, 2] :=
  Do_exhausted background (always ⟨503, envelopeBody⟩) rfl (fun _ _ => rfl)

theorem Do_wait_cancel_witness :
    (waitsOf (Do cancelledEarly (always ⟨503, envelopeBody⟩)).trace)[2 - 1]?
        = some (2 * time_Second)
    ∧ (∀ c, cancelledEarly.cancelAt = some c →
        c < waitStart (always ⟨503, envelopeBody⟩) 2 + 2 * time_Second →
        (Do cancelledEarly (always ⟨503, envelopeBody⟩)).result = .error cancelledEarly.err
        ∧ attemptsOf (Do cancelledEarly (always ⟨503, envelopeBody⟩)).trace = List.range 2
        ∧ (Do cancelledEarly (always ⟨503, envelopeBody⟩)).finishedAt
            = max (waitStart (always ⟨503, envelopeBody⟩) 2) c)
    ∧ ((selectWait cancelledEarly (waitStart (always ⟨503, envelopeBody⟩) 2)
          (2 * time_Second)).1 = .timer →
        2 ∈ attemptsOf (Do cancelledEarly (always ⟨503, envelopeBody⟩)).trace) :=
  Do_wait_cancel cancelledEarly (always ⟨503, envelopeBody⟩) 2 (by decide) (by decide)
    ⟨fun _ _ => rfl, fun j h1 h2 => by
      have hj : j = 1 := by omega
      subst hj
      decide⟩

theorem relay_writes_in_order_witness :
    (handleStreamingResponse goodConn ResponseWriter.fresh ⟨200, smallBody⟩).err = none
    ∧ (handleStreamingResponse goodConn ResponseWriter.fresh ⟨200, smallBody⟩).trace
        = smallBody.allReads.flatMap specEvents
    ∧ writtenBytes (handleStreamingResponse goodConn ResponseWriter.fresh ⟨200, smallBody⟩).trace
        = (smallBody.allReads.filter fun d => d.length > 0).flatten
    ∧ (handleStreamingResponse goodConn ResponseWriter.fresh ⟨200, smallBody⟩).w.body
        = ResponseWriter.fresh.body
          ++ (smallBody.allReads.filter fun d => d.length > 0).map Chunk.bytes
    ∧ (handleStreamingResponse goodConn ResponseWriter.fresh ⟨200, smallBody⟩).w.flushes
        = ResponseWriter.fresh.flushes
          + (smallBody.allReads.filter fun d => d.length > 0).length :=
  relay_writes_in_order goodConn ResponseWriter.fresh ⟨200, smallBody⟩ (by decide)
    (fun _ => rfl) (by decide) (by decide)

end Catllm
